import Mathlib

/-!
Shallow embedding of the Job Orchestration and Transcode Coordination
Pipeline of the M3U8-Player-Api repository.

Conventions of the embedding:
* JavaScript numbers that take part in progress arithmetic are modelled as
  exact rationals (`ℚ`); the concrete inputs appearing in the claims
  (`40 * 0.6`, `40 * 0.3`, `50 * 0.6`) are exact in IEEE double arithmetic
  as well, so nothing is lost at the evaluated points.
* JavaScript strings are Lean `String`s; the per-character regex replace
  `replace(/[^a-z0-9]/gi, '_')` is a `String.map`.
* A JavaScript object that is merged with `Object.assign` is modelled as a
  structure of `Option` fields: `some` for a key present in the update
  object, `none` for an absent key.
* `Map` / `Set` of the subscriber registry are modelled as association
  lists in insertion order with duplicate-free callback lists, matching
  the semantics of JS `Map` / `Set`.
-/

namespace M3U8

/-- JS `s || d` on strings: the default is used exactly when `s` is the
empty string (the only falsy string). -/
def jsOrStr (s d : String) : String := if s = "" then d else s

/-- JS `n || d` on a non-negative length: the default is used exactly when
`n` is `0`. Mirrors `audioTracks.length || 1`. -/
def jsOrNat (n d : Nat) : Nat := if n = 0 then d else n

/-- Character class of the regex `[a-z0-9]` with the `i` flag:
ASCII letters of either case and decimal digits. -/
def jsAlnum (c : Char) : Bool :=
  (('a' ≤ c && c ≤ 'z') || ('A' ≤ c && c ≤ 'Z') || ('0' ≤ c && c ≤ '9'))

/-- `listStartsWith pat s` is true when `pat` is a prefix of `s`. -/
def listStartsWith : List Char → List Char → Bool
  | [], _ => true
  | _ :: _, [] => false
  | a :: as, b :: bs => a == b && listStartsWith as bs

/-- `listContainsSub s pat` is true when `pat` occurs contiguously in `s`.
Mirrors JS `String.prototype.includes`. -/
def listContainsSub : List Char → List Char → Bool
  | [], pat => pat.isEmpty
  | s@(_ :: tail), pat => listStartsWith pat s || listContainsSub tail pat

/-- JS `s.includes(pat)` on strings. -/
def strIncludes (s pat : String) : Bool := listContainsSub s.data pat.data

/-!
## Progress Aggregator

`calculateTotalProgress` from `convertToHLS` in the optimized FFmpeg
service (src/unnamed/part_000, lines 166–176):

```js
const audioCount = audioTracks.length || 1;
let audioTotal = 0;
for (const [, progress] of audioProgressMap) { audioTotal += progress; }
const avgAudioProgress = audioCount > 0 ? audioTotal / audioCount : 0;
return (videoProgress * 0.6) + (avgAudioProgress * 0.3);
```

`audioProgressMap` holds one entry per audio track (each initialised to 0
synchronously before any task can report), so it is modelled as the list
of the per-track progress values.
-/

/-- Job-level progress aggregate over one video progress value and the
list of per-audio-track progress values. -/
def calculateTotalProgress (videoProgress : ℚ) (audioProgresses : List ℚ) : ℚ :=
  let audioCount : ℚ := (jsOrNat audioProgresses.length 1 : ℚ)
  let audioTotal : ℚ := audioProgresses.sum
  let avgAudioProgress : ℚ := if 0 < audioCount then audioTotal / audioCount else 0
  (videoProgress * (6/10)) + (avgAudioProgress * (3/10))

end M3U8

namespace M3U8

/-!
## Audio tracks, language sanitization and the master manifest

Audio stream descriptors produced by `probeFile` (the fields the pipeline
driver consumes; `codec`, `channels` and `bitrate` are carried along by
the source but never read by the claims' code paths):

```js
audio: audioStreams.map((a, i) => ({
  index: i, codec: a.codec_name,
  language: a.tags?.language || 'und',
  title: a.tags?.title || `Audio ${i + 1}`, ...
}))
```
-/

/-- One probed audio stream as consumed by the pipeline driver. -/
structure ProbeAudio where
  language : String
  title : String
  deriving DecidableEq

/-- One audio track descriptor as built in `processVideo` (the JS object
field is named `default`; it is called `isDefault` here because `default`
is reserved in Lean). -/
structure AudioTrack where
  index : Nat
  language : String
  name : String
  isDefault : Bool
  deriving DecidableEq

/-- Indexed construction from `processVideo` in src/src/routes/stream.js,
lines 174–179:

```js
const audioTracks = probeInfo.audio.map((a, i) => ({
  index: i,
  language: a.language || 'und',
  name: a.title || `Audio ${i + 1}`,
  default: i === 0
}));
```
-/
def buildAudioTracksAux (i : Nat) : List ProbeAudio → List AudioTrack
  | [] => []
  | a :: rest =>
    { index := i,
      language := jsOrStr a.language "und",
      name := jsOrStr a.title ("Audio " ++ toString (i + 1)),
      isDefault := i == 0 } :: buildAudioTracksAux (i + 1) rest

/-- The audio-track list handed to `convertToHLS` and, through it, to the
manifest generator. -/
def buildAudioTracks (pa : List ProbeAudio) : List AudioTrack :=
  buildAudioTracksAux 0 pa

/-- Sanitization used by `convertAudioStreamOptimized`
(src/unnamed/part_000, line 386):
`const safeLanguage = track.language.replace(/[^a-z0-9]/gi, '_');`
(the regex replaces each non-alphanumeric character by an underscore,
modelled as a character-wise map). -/
def ffmpegSafeLanguage (lang : String) : String :=
  ⟨lang.data.map (fun c => if jsAlnum c then c else '_')⟩

/-- Sanitization used by `PlaylistGenerator.generateMaster`
(src/unnamed/part_001, line 21):
`const safeLanguage = track.language.replace(/[^a-z0-9]/gi, '_');`
(same character-wise rule as the FFmpeg service). -/
def playlistSafeLanguage (lang : String) : String :=
  ⟨lang.data.map (fun c => if jsAlnum c then c else '_')⟩

/-- Name of the audio variant playlist written by
`convertAudioStreamOptimized` (src/unnamed/part_000, line 408):
`.output(path.join(outputDir, `audio_safeLanguage.m3u8`))`. -/
def audioOutputPlaylistName (track : AudioTrack) : String :=
  "audio_" ++ ffmpegSafeLanguage track.language ++ ".m3u8"

/-- URI embedded in the track's `EXT-X-MEDIA` manifest line
(src/unnamed/part_001, line 28). -/
def mediaLineUri (track : AudioTrack) : String :=
  "audio_" ++ playlistSafeLanguage track.language ++ ".m3u8"

/-- DEFAULT attribute of a track's manifest entry
(src/unnamed/part_001, line 17): `track.default ? 'YES' : 'NO'`. -/
def defaultAttr (track : AudioTrack) : String :=
  if track.isDefault then "YES" else "NO"

/-- One `EXT-X-MEDIA` line of the master manifest
(src/unnamed/part_001, lines 25–29). -/
def mediaLine (track : AudioTrack) : String :=
  "#EXT-X-MEDIA:TYPE=AUDIO,GROUP-ID=\"audio\",NAME=\"" ++ track.name ++
  "\",LANGUAGE=\"" ++ track.language ++ "\",DEFAULT=" ++ defaultAttr track ++
  ",AUTOSELECT=YES,URI=\"" ++ mediaLineUri track ++ "\""

/-- The lines of the master playlist rendered by
`PlaylistGenerator.generateMaster` (src/unnamed/part_001, lines 5–44),
before the final `join('\n')`. -/
def generateMasterLines (videoPlaylist : String) (audioTracks : List AudioTrack)
    (resolution : String) (bandwidth : Nat) (codecs : String) : List String :=
  ["#EXTM3U", "#EXT-X-VERSION:7", ""] ++
  audioTracks.map mediaLine ++
  [""] ++
  ["#EXT-X-STREAM-INF:BANDWIDTH=" ++ toString bandwidth ++ ",RESOLUTION=" ++
    resolution ++ ",CODECS=\"" ++ codecs ++ "\",AUDIO=\"audio\""] ++
  [videoPlaylist, ""]

/-- The rendered master playlist text. -/
def generateMaster (videoPlaylist : String) (audioTracks : List AudioTrack)
    (resolution : String) (bandwidth : Nat) (codecs : String) : String :=
  String.intercalate "\n"
    (generateMasterLines videoPlaylist audioTracks resolution bandwidth codecs)

/-- Claim C4: during the encode stage, the aggregate over one video task
and a non-empty list of audio tasks equals
`0.6 * videoProgress + 0.3 * mean(audioProgresses)`. -/
theorem C4_aggregate_formula (vp : ℚ) (aps : List ℚ) (h : aps ≠ []) :
    calculateTotalProgress vp aps =
      (6/10) * vp + (3/10) * (aps.sum / (aps.length : ℚ)) := by
  have hlen : aps.length ≠ 0 := by
    intro hc
    exact h (List.length_eq_zero.mp hc)
  have hcount : jsOrNat aps.length 1 = aps.length := by
    simp [jsOrNat, hlen]
  have hpos : (0 : ℚ) < (aps.length : ℚ) := by
    exact_mod_cast Nat.pos_of_ne_zero hlen
  simp only [calculateTotalProgress, hcount, if_pos hpos]
  ring

/-- Witness for C4 at the inputs of the claim: video progress 40 and audio
progresses `[20, 60]` give aggregate 36. -/
theorem C4_aggregate_formula_witness :
    ([20, 60] : List ℚ) ≠ [] ∧
    calculateTotalProgress 40 [20, 60] =
      (6/10) * 40 + (3/10) * (([20, 60] : List ℚ).sum / (([20, 60] : List ℚ).length : ℚ)) ∧
    calculateTotalProgress 40 [20, 60] = 36 := by
  refine ⟨by simp, C4_aggregate_formula 40 [20, 60] (by simp), ?_⟩
  norm_num [calculateTotalProgress, jsOrNat]

/-- Claim C5: with an empty audio-track list the aggregate is still
defined (the `length || 1` guard makes the mean 0 instead of a
division by zero) and equals `0.6 * videoProgress`; at video progress 50
it equals 30. -/
theorem C5_empty_audio_aggregate :
    (∀ vp : ℚ, calculateTotalProgress vp [] = (6/10) * vp) ∧
    calculateTotalProgress 50 [] = 30 := by
  constructor
  · intro vp
    simp only [calculateTotalProgress, jsOrNat]
    norm_num
    ring
  · norm_num [calculateTotalProgress, jsOrNat]

/-- Slugs are computed by one shared rule: for every track the URI slug of
the manifest entry and the output playlist file name agree. -/
theorem mediaLineUri_eq_output (track : AudioTrack) :
    mediaLineUri track = audioOutputPlaylistName track := rfl

/-- Claim C6: for every audio track the slug embedded in the master
manifest's `EXT-X-MEDIA` URI equals the slug used to name that track's
output playlist file; both come from the sanitization rule that maps every
non-alphanumeric character to an underscore, and the language `pt-BR`
yields the slug `pt_BR` in both places. -/
theorem C6_slug_consistency :
    (∀ track : AudioTrack, mediaLineUri track = audioOutputPlaylistName track) ∧
    (∀ lang : String, playlistSafeLanguage lang = ffmpegSafeLanguage lang) ∧
    playlistSafeLanguage "pt-BR" = "pt_BR" ∧
    ffmpegSafeLanguage "pt-BR" = "pt_BR" ∧
    mediaLineUri { index := 0, language := "pt-BR", name := "Portuguese", isDefault := true } =
      "audio_pt_BR.m3u8" ∧
    audioOutputPlaylistName
      { index := 0, language := "pt-BR", name := "Portuguese", isDefault := true } =
      "audio_pt_BR.m3u8" := by
  refine ⟨mediaLineUri_eq_output, fun lang => rfl, ?_, ?_, ?_, ?_⟩ <;> decide

/-- Tracks built after the first one all carry a positive index and hence
are not flagged default. -/
theorem buildAudioTracksAux_defaultAttr (rest : List ProbeAudio) :
    ∀ n : Nat, n ≠ 0 →
      (buildAudioTracksAux n rest).map defaultAttr = List.replicate rest.length "NO" := by
  induction rest with
  | nil => intro n _; rfl
  | cons a tail ih =>
    intro n hn
    have hbeq : (n == 0) = false := by
      simp [hn]
    simp [buildAudioTracksAux, defaultAttr, hbeq, List.replicate_succ,
      ih (n + 1) (Nat.succ_ne_zero n)]

/-- Claim C7: for every non-empty probed audio list, the track list built
by `processVideo` flags exactly one track default, and the sequence of
DEFAULT attributes rendered into the manifest's `EXT-X-MEDIA` lines is
`YES` on the first entry and `NO` on every other entry. -/
theorem C7_default_uniqueness (pa : List ProbeAudio) (h : pa ≠ []) :
    ((buildAudioTracks pa).filter (fun t => t.isDefault)).length = 1 ∧
    (buildAudioTracks pa).map defaultAttr =
      "YES" :: List.replicate (pa.length - 1) "NO" := by
  match pa, h with
  | a :: rest, _ =>
    have hmap : (buildAudioTracksAux 1 rest).map defaultAttr =
        List.replicate rest.length "NO" :=
      buildAudioTracksAux_defaultAttr rest 1 Nat.one_ne_zero
    constructor
    · have hfilter :
          ∀ (l : List ProbeAudio) (n : Nat), n ≠ 0 →
            (buildAudioTracksAux n l).filter (fun t => t.isDefault) = [] := by
        intro l
        induction l with
        | nil => intro n _; rfl
        | cons b tl ih =>
          intro n hn
          have hbeq : (n == 0) = false := by
            simp [hn]
          simp [buildAudioTracksAux, List.filter, hbeq, ih (n + 1) (Nat.succ_ne_zero n)]
      simp [buildAudioTracks, buildAudioTracksAux, List.filter,
        hfilter rest 1 Nat.one_ne_zero]
    · simp [buildAudioTracks, buildAudioTracksAux, defaultAttr, hmap]

/-- Witness for C7 at the two-track list of Scenario D
(languages `ja` and `en`). -/
theorem C7_default_uniqueness_witness :
    ([⟨"ja", "Japanese"⟩, ⟨"en", "English"⟩] : List ProbeAudio) ≠ [] ∧
    ((buildAudioTracks [⟨"ja", "Japanese"⟩, ⟨"en", "English"⟩]).filter
        (fun t => t.isDefault)).length = 1 ∧
    (buildAudioTracks [⟨"ja", "Japanese"⟩, ⟨"en", "English"⟩]).map defaultAttr =
      "YES" :: List.replicate (([⟨"ja", "Japanese"⟩, ⟨"en", "English"⟩] :
        List ProbeAudio).length - 1) "NO" := by
  refine ⟨by decide, C7_default_uniqueness _ (by decide)⟩

/-!
## Video task: stream copy versus re-encode

`convertVideoStream` in src/src/services/ffmpeg.service.js, lines 145–239:

```js
const videoCodec = fileInfo.video[0]?.codec?.toLowerCase() || '';
const pixFmt = fileInfo.video[0]?.pix_fmt || '';
const canCopy = ['h264', 'avc1', 'avc'].includes(videoCodec) &&
                !pixFmt.includes('10'); // Not 10-bit
const needsReencode = !canCopy;
```

followed by `-c:v copy` in the copy branch and the libx264 option block in
the re-encode branch. The optimized variant `convertVideoStreamOptimized`
(src/unnamed/part_000, lines 255–261) additionally requires the pixel
format to contain `yuv420p` before copying.
-/

/-- ASCII lower-casing of the codec id, as `toLowerCase()` acts on the
codec names involved. -/
def jsToLower (s : String) : String :=
  ⟨s.data.map Char.toLower⟩

/-- The copy-safe codec set of both `convertVideoStream` variants. -/
def copySafeCodecs : List String := ["h264", "avc1", "avc"]

/-- Copy decision of `convertVideoStream`
(src/src/services/ffmpeg.service.js, lines 148–153). -/
def canCopyVideo (codec pixFmt : String) : Bool :=
  copySafeCodecs.contains (jsToLower codec) && !(strIncludes pixFmt "10")

/-- Copy decision of `convertVideoStreamOptimized`
(src/unnamed/part_000, lines 255–260), which also demands an explicit
`yuv420p` pixel format. -/
def canCopyVideoOptimized (codec pixFmt : String) : Bool :=
  copySafeCodecs.contains (jsToLower codec) && !(strIncludes pixFmt "10") &&
    strIncludes pixFmt "yuv420p"

/-- Re-encode option block of `convertVideoStream`
(src/src/services/ffmpeg.service.js, lines 176–189). -/
def videoReencodeOptions : List String :=
  ["-c:v libx264", "-preset veryfast", "-crf 23", "-profile:v high",
   "-level 4.1", "-pix_fmt yuv420p", "-g 48", "-keyint_min 48",
   "-sc_threshold 0", "-movflags +faststart", "-x264-params threads=40"]

/-- Codec-dependent output options chosen by `convertVideoStream`: the
shared HLS options followed by either the copy flag or the re-encode
block. -/
def videoOutputOptions (codec pixFmt : String) : List String :=
  ["-map 0:v:0", "-threads 40", "-f hls", "-hls_time 4",
   "-hls_playlist_type vod", "-hls_segment_type fmp4",
   "-hls_fmp4_init_filename init_video.mp4"] ++
  (if canCopyVideo codec pixFmt then ["-c:v copy"]
   else videoReencodeOptions)

/-- Claim C9: stream copy is selected exactly when the source codec is in
the H.264 family and the pixel format is not a 10-bit variant; in every
other case the options re-encode to the fixed compatibility profile
(libx264, 8-bit yuv420p, GOP 48 with fixed keyframe interval). The
optimized variant's copy decision also implies the same necessary
condition. -/
theorem C9_copy_selection (codec pixFmt : String) :
    ("-c:v copy" ∈ videoOutputOptions codec pixFmt ↔
      (jsToLower codec ∈ copySafeCodecs ∧ strIncludes pixFmt "10" = false)) ∧
    (¬ (jsToLower codec ∈ copySafeCodecs ∧ strIncludes pixFmt "10" = false) →
      "-c:v copy" ∉ videoOutputOptions codec pixFmt ∧
      "-c:v libx264" ∈ videoOutputOptions codec pixFmt ∧
      "-pix_fmt yuv420p" ∈ videoOutputOptions codec pixFmt ∧
      "-g 48" ∈ videoOutputOptions codec pixFmt ∧
      "-keyint_min 48" ∈ videoOutputOptions codec pixFmt) ∧
    (canCopyVideoOptimized codec pixFmt = true →
      jsToLower codec ∈ copySafeCodecs ∧ strIncludes pixFmt "10" = false) := by
  have hcond : canCopyVideo codec pixFmt = true ↔
      (jsToLower codec ∈ copySafeCodecs ∧ strIncludes pixFmt "10" = false) := by
    simp [canCopyVideo, List.contains, List.elem_iff]
  by_cases hc : canCopyVideo codec pixFmt = true
  · refine ⟨?_, ?_, ?_⟩
    · simp [videoOutputOptions, hc, videoReencodeOptions, hcond.mp hc]
    · intro hn
      exact absurd (hcond.mp hc) hn
    · intro _
      exact hcond.mp hc
  · have hc' : canCopyVideo codec pixFmt = false := by
      simpa using hc
    refine ⟨?_, ?_, ?_⟩
    · constructor
      · intro hmem
        exfalso
        simp [videoOutputOptions, hc', videoReencodeOptions] at hmem
      · intro hcopy
        exact absurd (hcond.mpr hcopy) hc
    · intro _
      simp [videoOutputOptions, hc', videoReencodeOptions]
    · intro hopt
      apply hcond.mp
      have : canCopyVideoOptimized codec pixFmt = true → canCopyVideo codec pixFmt = true := by
        simp [canCopyVideoOptimized, canCopyVideo]
        tauto
      exact this hopt

/-- Witness for C9 at a 10-bit HEVC source: copy is rejected and the
re-encode profile is selected. -/
theorem C9_copy_selection_witness :
    ¬ (jsToLower "hevc" ∈ copySafeCodecs ∧ strIncludes "yuv420p10le" "10" = false) ∧
    "-c:v copy" ∉ videoOutputOptions "hevc" "yuv420p10le" ∧
    "-c:v libx264" ∈ videoOutputOptions "hevc" "yuv420p10le" ∧
    ("-c:v copy" ∈ videoOutputOptions "h264" "yuv420p" ↔
      (jsToLower "h264" ∈ copySafeCodecs ∧ strIncludes "yuv420p" "10" = false)) := by
  have hne : ¬ (jsToLower "hevc" ∈ copySafeCodecs ∧
      strIncludes "yuv420p10le" "10" = false) := by decide
  have h1 := (C9_copy_selection "hevc" "yuv420p10le").2.1 hne
  exact ⟨hne, h1.1, h1.2.1, (C9_copy_selection "h264" "yuv420p").1⟩

/-!
## Job Store (JobManager in src/src/services/download.service.js)

```js
updateJob(id, updates) {
  const job = this.jobs.get(id);
  if (!job) return null;
  Object.assign(job, updates, { updatedAt: new Date() });
  ...
}
cancelJob(id) {
  const job = this.jobs.get(id);
  if (!job) return false;
  job.status = 'cancelled';
  job.updatedAt = new Date();
  ...
  return true;
}
isCancelled(id) { const job = this.jobs.get(id); return job?.status === 'cancelled'; }
```

A job record is a structure; an update object is a structure of `Option`
fields (a key present in the JS update object is `some`). `Object.assign`
overwrites exactly the keys present in the update, so a present `fileInfo`
replaces the stored `fileInfo` object wholesale. Timestamps are modelled
as natural counters supplied by the caller.
-/

/-- The `fileInfo` descriptor as assembled in `processVideo`; every field
is optional because the two update sites populate different subsets. -/
structure FileInfo where
  name : Option String := none
  size : Option Nat := none
  contentType : Option String := none
  duration : Option ℚ := none
  resolution : Option String := none
  audioTracks : Option (List ProbeAudio) := none
  deriving DecidableEq

/-- A stored job record. -/
structure Job where
  id : Nat
  url : String
  status : String
  progress : ℚ
  createdAt : Nat
  updatedAt : Nat
  fileInfo : Option FileInfo := none
  message : Option String := none
  step : Option String := none
  speed : Option String := none
  eta : Option String := none
  streamUrl : Option String := none
  deriving DecidableEq

/-- A `updateJob` argument object: `some` marks a key present in the JS
object literal. -/
structure JobUpdate where
  status : Option String := none
  progress : Option ℚ := none
  fileInfo : Option FileInfo := none
  message : Option String := none
  step : Option String := none
  speed : Option String := none
  eta : Option String := none
  streamUrl : Option String := none
  deriving DecidableEq

/-- `createJob(url)`: status `created`, progress 0, timestamps now. -/
def createJob (id : Nat) (url : String) (now : Nat) : Job :=
  { id := id, url := url, status := "created", progress := 0,
    createdAt := now, updatedAt := now }

/-- Field merge of `updateJob`: `Object.assign(job, updates, { updatedAt:
new Date() })` — every key present in `u` overwrites the stored field,
absent keys leave it unchanged, and `updatedAt` is always bumped. -/
def updateJobFields (j : Job) (u : JobUpdate) (now : Nat) : Job :=
  { j with
    status := u.status.getD j.status,
    progress := u.progress.getD j.progress,
    fileInfo := match u.fileInfo with
      | some fi => some fi
      | none => j.fileInfo,
    message := match u.message with
      | some v => some v
      | none => j.message,
    step := match u.step with
      | some v => some v
      | none => j.step,
    speed := match u.speed with
      | some v => some v
      | none => j.speed,
    eta := match u.eta with
      | some v => some v
      | none => j.eta,
    streamUrl := match u.streamUrl with
      | some v => some v
      | none => j.streamUrl,
    updatedAt := now }

/-- `updateJob(id, updates)` on the slot of one job id: `null` when the
job does not exist, otherwise the merged record. -/
def updateJob (slot : Option Job) (u : JobUpdate) (now : Nat) : Option Job :=
  slot.map (fun j => updateJobFields j u now)

/-- `cancelJob(id)`: `false` when the job does not exist; otherwise the
status is set to `cancelled` unconditionally and `true` is returned. -/
def cancelJob (slot : Option Job) (now : Nat) : Bool × Option Job :=
  match slot with
  | none => (false, none)
  | some j => (true, some { j with status := "cancelled", updatedAt := now })

/-- `isCancelled(id)`: `job?.status === 'cancelled'`. -/
def isCancelled (slot : Option Job) : Bool :=
  match slot with
  | none => false
  | some j => j.status == "cancelled"

/-!
## Pipeline driver updates (src/src/routes/stream.js)
-/

/-- The `analyzed` checkpoint update (stream.js lines 126–133): status
`analyzed` and a fresh `fileInfo` object holding name, size and
contentType. -/
def analyzedUpdate (name : Option String) (size : Option Nat)
    (contentType : Option String) : JobUpdate :=
  { status := some "analyzed",
    fileInfo := some { name := name, size := size, contentType := contentType } }

/-- The post-download probe update (stream.js lines 162–171): a fresh
`fileInfo` object holding name, size, duration, resolution and
audioTracks — and no contentType key. -/
def probeUpdate (name : Option String) (size : Option Nat) (duration : Option ℚ)
    (resolution : Option String) (audioTracks : List ProbeAudio) : JobUpdate :=
  let fi : FileInfo :=
    { name := name, size := size, duration := duration,
      resolution := resolution, audioTracks := some audioTracks }
  { fileInfo := some fi }

/-- The catch handler installed by `router.post('/start')` (stream.js
lines 32–38): any error escaping `processVideo` — the cancellation
`throw new Error('Job cancelled')` included — sets the job to status
`error` with the error's message. -/
def startErrorHandler (slot : Option Job) (msg : String) (now : Nat) : Option Job :=
  updateJob slot { status := some "error", message := some msg, step := some "analyze" } now

/-- Counterexample to claim C1: a job whose progress stands at 50 and then
receives `updateJob` with progress 10 ends with the lower stored progress
10 — `updateJob` does not clamp. -/
theorem C1_counterexample :
    (updateJobFields
        (updateJobFields (createJob 0 "http://example.com/v.mkv" 0)
          { progress := some 50 } 1)
        { progress := some 10 } 2).progress <
      (updateJobFields (createJob 0 "http://example.com/v.mkv" 0)
        { progress := some 50 } 1).progress := by
  norm_num [updateJobFields, createJob]

/-- Claim C1 amended: `updateJob` merges the supplied progress without any
clamp — the stored progress after the call equals the supplied value
whenever one is supplied (and is unchanged otherwise), so a caller
supplying a lower value strictly decreases the stored progress. -/
theorem C1_progress_not_clamped (j : Job) (u : JobUpdate) (now : Nat) :
    (updateJobFields j u now).progress = u.progress.getD j.progress ∧
    (∀ p : ℚ, p < j.progress →
      (updateJobFields j { u with progress := some p } now).progress < j.progress) := by
  refine ⟨rfl, ?_⟩
  intro p hp
  simpa [updateJobFields] using hp

/-- Witness for the amended C1 at a job holding progress 50 and an update
supplying progress 10. -/
theorem C1_progress_not_clamped_witness :
    ((10 : ℚ) <
      (updateJobFields (createJob 0 "http://example.com/v.mkv" 0)
        { progress := some 50 } 1).progress) ∧
    (updateJobFields
        (updateJobFields (createJob 0 "http://example.com/v.mkv" 0)
          { progress := some 50 } 1)
        { ({} : JobUpdate) with progress := some 10 } 2).progress <
      (updateJobFields (createJob 0 "http://example.com/v.mkv" 0)
        { progress := some 50 } 1).progress := by
  have h : (10 : ℚ) <
      (updateJobFields (createJob 0 "http://example.com/v.mkv" 0)
        { progress := some 50 } 1).progress := by
    norm_num [updateJobFields, createJob]
  exact ⟨h,
    (C1_progress_not_clamped
      (updateJobFields (createJob 0 "http://example.com/v.mkv" 0)
        { progress := some 50 } 1) {} 2).2 10 h⟩

/-- Counterexample to claim C2: a job in the terminal status `ready` still
has its status overwritten by a later `updateJob`, and `cancelJob` on it
returns `true` and moves it to `cancelled` instead of being a no-op
returning `false`. -/
theorem C2_counterexample :
    (updateJobFields
        (updateJobFields (createJob 0 "http://example.com/v.mkv" 0)
          { status := some "ready" } 1)
        { status := some "downloading" } 2).status = "downloading" ∧
    (cancelJob
        (some (updateJobFields (createJob 0 "http://example.com/v.mkv" 0)
          { status := some "ready" } 1)) 2).1 = true ∧
    ((cancelJob
        (some (updateJobFields (createJob 0 "http://example.com/v.mkv" 0)
          { status := some "ready" } 1)) 2).2.map Job.status) = some "cancelled" := by
  exact ⟨rfl, rfl, rfl⟩

/-- Claim C2 amended: the Job Store does not protect terminal states —
`updateJob` installs any supplied status over any current status, and
`cancelJob` sets `cancelled` and returns `true` for every existing job
(terminal or not); it returns `false` exactly when the job is missing. -/
theorem C2_terminal_states_not_protected :
    (∀ (j : Job) (u : JobUpdate) (now : Nat),
      (updateJobFields j u now).status = u.status.getD j.status) ∧
    (∀ (j : Job) (now : Nat),
      cancelJob (some j) now =
        (true, some { j with status := "cancelled", updatedAt := now })) ∧
    (∀ now : Nat, cancelJob (none : Option Job) now = (false, none)) :=
  ⟨fun _ _ _ => rfl, fun _ _ => rfl, fun _ => rfl⟩

/-- Counterexample to claim C3: after a user cancellation the checkpoint
observes `isCancelled = true`, `processVideo` throws `Job cancelled`, and
the start handler's catch overwrites the job to status `error` — the final
status is `error`, not `cancelled`. -/
theorem C3_counterexample :
    isCancelled ((cancelJob (some (createJob 0 "http://example.com/v.mkv" 0)) 1).2) = true ∧
    ((startErrorHandler
        ((cancelJob (some (createJob 0 "http://example.com/v.mkv" 0)) 1).2)
        "Job cancelled" 2).map Job.status) = some "error" ∧
    ((startErrorHandler
        ((cancelJob (some (createJob 0 "http://example.com/v.mkv" 0)) 1).2)
        "Job cancelled" 2).map Job.status) ≠ some "cancelled" := by
  refine ⟨rfl, rfl, by decide⟩

/-- Claim C3 amended: when the pipeline observes cancellation at a
checkpoint it raises `Job cancelled`, and the catch handler of the start
route converts every escaping error — this one included — into status
`error` with that message; the `cancelled` status is overwritten because
`updateJob` applies any supplied status. -/
theorem C3_cancellation_ends_as_error (j : Job) (msg : String) (now : Nat)
    (_cancelled : isCancelled (some j) = true) :
    (startErrorHandler (some j) msg now).map Job.status = some "error" ∧
    (startErrorHandler (some j) msg now).map Job.message = some (some msg) :=
  ⟨rfl, rfl⟩

/-- Witness for the amended C3 at a freshly cancelled job. -/
theorem C3_cancellation_ends_as_error_witness :
    isCancelled (some { createJob 0 "http://example.com/v.mkv" 0 with
      status := "cancelled" }) = true ∧
    (startErrorHandler (some { createJob 0 "http://example.com/v.mkv" 0 with
        status := "cancelled" }) "Job cancelled" 2).map Job.status = some "error" ∧
    (startErrorHandler (some { createJob 0 "http://example.com/v.mkv" 0 with
        status := "cancelled" }) "Job cancelled" 2).map Job.message =
      some (some "Job cancelled") := by
  refine ⟨rfl, ?_⟩
  exact C3_cancellation_ends_as_error
    { createJob 0 "http://example.com/v.mkv" 0 with status := "cancelled" }
    "Job cancelled" 2 rfl

/-- Counterexample to claim C8: the contentType recorded by the analyzed
update is gone after the post-download probe update, because that update
replaces the whole `fileInfo` object with one that has no contentType
key. -/
theorem C8_counterexample :
    (updateJobFields (createJob 0 "http://example.com/v.mkv" 0)
        (analyzedUpdate (some "v.mkv") (some 1000) (some "video/x-matroska"))
        1).fileInfo.map FileInfo.contentType = some (some "video/x-matroska") ∧
    (updateJobFields
        (updateJobFields (createJob 0 "http://example.com/v.mkv" 0)
          (analyzedUpdate (some "v.mkv") (some 1000) (some "video/x-matroska")) 1)
        (probeUpdate (some "v.mkv") (some 1000) (some 3600) (some "1920x1080") [])
        2).fileInfo.map FileInfo.contentType = some none := by
  exact ⟨rfl, rfl⟩

/-- Claim C8 amended: each `fileInfo` update replaces the descriptor
wholesale. After the analyzed update the descriptor holds name, size and
contentType; after the probe update it holds exactly name, size, duration,
resolution and audioTracks — contentType is unset again because the probe
update does not re-supply it. -/
theorem C8_fileInfo_replaced_wholesale (j : Job) (n1 n2 : Option String)
    (s1 s2 : Option Nat) (ct : String) (d : Option ℚ) (r : Option String)
    (ts : List ProbeAudio) (now1 now2 : Nat) :
    (updateJobFields j (analyzedUpdate n1 s1 (some ct)) now1).fileInfo =
      some { name := n1, size := s1, contentType := some ct } ∧
    (updateJobFields (updateJobFields j (analyzedUpdate n1 s1 (some ct)) now1)
        (probeUpdate n2 s2 d r ts) now2).fileInfo =
      some { name := n2, size := s2, duration := d, resolution := r,
             audioTracks := some ts } :=
  ⟨rfl, rfl⟩

/-!
## Subscriber registry (JobManager.subscribe, download.service.js lines 287–303)

```js
subscribe(id, callback) {
  if (!this.subscribers.has(id)) { this.subscribers.set(id, new Set()); }
  this.subscribers.get(id).add(callback);
  return () => {
    const subs = this.subscribers.get(id);
    if (subs) {
      subs.delete(callback);
      if (subs.size === 0) { this.subscribers.delete(id); }
    }
  };
}
```

The `Map` is an association list in insertion order; a `Set` is a
duplicate-free list in insertion order. Job ids and callbacks are opaque
tokens, modelled as naturals.
-/

/-- The subscriber registry: job id to the list of registered callbacks. -/
abbrev Registry : Type := List (Nat × List Nat)

/-- `Map.get`: the callback set of a job id, or `none`. -/
def regLookup : Registry → Nat → Option (List Nat)
  | [], _ => none
  | (k, s) :: rest, id => if k = id then some s else regLookup rest id

/-- `Map.set`: replace the entry of an existing key in place, or append a
new entry. -/
def regSet : Registry → Nat → List Nat → Registry
  | [], id, v => [(id, v)]
  | (k, s) :: rest, id, v =>
    if k = id then (k, v) :: rest else (k, s) :: regSet rest id v

/-- `Map.delete`: drop the entry of a key. -/
def regDelete : Registry → Nat → Registry
  | [], _ => []
  | (k, s) :: rest, id => if k = id then rest else (k, s) :: regDelete rest id

/-- `Set.add`: append the callback unless it is already registered. -/
def setAdd (s : List Nat) (cb : Nat) : List Nat :=
  if cb ∈ s then s else s ++ [cb]

/-- `subscribe(id, callback)`: create the set on first registration, then
add the callback. -/
def subscribeOp (r : Registry) (id cb : Nat) : Registry :=
  match regLookup r id with
  | none => regSet r id (setAdd [] cb)
  | some s => regSet r id (setAdd s cb)

/-- The returned unsubscribe capability: remove the callback from the set
if the entry exists, and delete the whole entry when the set becomes
empty. -/
def unsubscribeOp (r : Registry) (id cb : Nat) : Registry :=
  match regLookup r id with
  | none => r
  | some s =>
    let s' := s.erase cb
    if s' = [] then regDelete r id else regSet r id s'

/-- One registry event: a `subscribe` call or an invocation of an
unsubscribe capability for a given id/callback pair. -/
inductive SubEvent where
  | sub (id cb : Nat)
  | unsub (id cb : Nat)
  deriving DecidableEq

/-- Apply one event. -/
def applyEvent (r : Registry) : SubEvent → Registry
  | .sub id cb => subscribeOp r id cb
  | .unsub id cb => unsubscribeOp r id cb

/-- Run a sequence of events from the empty registry. -/
def applyEvents (events : List SubEvent) : Registry :=
  events.foldl applyEvent ([] : Registry)

/-- Well-formedness of a registry state: every entry holds a non-empty
duplicate-free callback set, and keys are unique. -/
def RegWF (r : Registry) : Prop :=
  (∀ p ∈ r, p.2 ≠ [] ∧ p.2.Nodup) ∧ (r.map Prod.fst).Nodup

/-- A successful lookup returns an entry of the registry. -/
theorem regLookup_mem {r : Registry} {id : Nat} {s : List Nat}
    (h : regLookup r id = some s) : (id, s) ∈ r := by
  induction r with
  | nil => simp [regLookup] at h
  | cons p rest ih =>
    obtain ⟨k, t⟩ := p
    by_cases hk : k = id
    · subst hk
      simp [regLookup] at h
      subst h
      exact List.mem_cons_self _ _
    · simp [regLookup, hk] at h
      exact List.mem_cons_of_mem _ (ih h)

/-- A missing key is not among the registry's keys. -/
theorem regLookup_none_not_mem {r : Registry} {id : Nat}
    (h : regLookup r id = none) : id ∉ r.map Prod.fst := by
  induction r with
  | nil => simp
  | cons p rest ih =>
    obtain ⟨k, t⟩ := p
    by_cases hk : k = id
    · subst hk
      simp [regLookup] at h
    · simp only [regLookup, if_neg hk] at h
      intro hmem
      rw [List.map_cons] at hmem
      rcases List.mem_cons.mp hmem with h1 | h1
      · exact hk h1.symm
      · exact ih h h1

/-- A key absent from the registry's keys looks up to `none`. -/
theorem regLookup_eq_none {r : Registry} {id : Nat}
    (h : id ∉ r.map Prod.fst) : regLookup r id = none := by
  induction r with
  | nil => rfl
  | cons p rest ih =>
    obtain ⟨k, t⟩ := p
    rw [List.map_cons] at h
    have hk : k ≠ id := by
      intro hc
      exact h (by simp [hc])
    have hrest : id ∉ rest.map Prod.fst := by
      intro hc
      exact h (List.mem_cons_of_mem _ hc)
    simp only [regLookup, if_neg hk]
    exact ih hrest

/-- Every entry of `regSet r id v` is either the written pair or an old
entry. -/
theorem regSet_mem {r : Registry} {id : Nat} {v : List Nat} {p : Nat × List Nat}
    (h : p ∈ regSet r id v) : p = (id, v) ∨ p ∈ r := by
  induction r with
  | nil =>
    simp [regSet] at h
    exact Or.inl h
  | cons q rest ih =>
    obtain ⟨k, t⟩ := q
    by_cases hk : k = id
    · subst hk
      simp [regSet] at h
      rcases h with h | h
      · exact Or.inl h
      · exact Or.inr (List.mem_cons_of_mem _ h)
    · simp [regSet, hk] at h
      rcases h with h | h
      · exact Or.inr (by simp [h])
      · rcases ih h with h' | h'
        · exact Or.inl h'
        · exact Or.inr (List.mem_cons_of_mem _ h')

/-- Writing an existing key leaves the key list unchanged. -/
theorem regSet_map_fst_of_mem {r : Registry} {id : Nat} {v : List Nat}
    (h : id ∈ r.map Prod.fst) : (regSet r id v).map Prod.fst = r.map Prod.fst := by
  induction r with
  | nil => simp at h
  | cons q rest ih =>
    obtain ⟨k, t⟩ := q
    by_cases hk : k = id
    · subst hk
      simp [regSet]
    · rw [List.map_cons] at h
      rcases List.mem_cons.mp h with h1 | h1
      · exact absurd h1.symm hk
      · simp [regSet, hk, ih h1]

/-- Writing a fresh key appends it to the key list. -/
theorem regSet_map_fst_of_not_mem {r : Registry} {id : Nat} {v : List Nat}
    (h : id ∉ r.map Prod.fst) : (regSet r id v).map Prod.fst = r.map Prod.fst ++ [id] := by
  induction r with
  | nil => simp [regSet]
  | cons q rest ih =>
    obtain ⟨k, t⟩ := q
    rw [List.map_cons] at h
    have hk : k ≠ id := by
      intro hc
      exact h (by simp [hc])
    have hrest : id ∉ rest.map Prod.fst := by
      intro hc
      exact h (List.mem_cons_of_mem _ hc)
    simp [regSet, hk, ih hrest]

/-- Deletion produces a sublist of the registry. -/
theorem regDelete_sublist (r : Registry) (id : Nat) : (regDelete r id).Sublist r := by
  induction r with
  | nil => simp [regDelete]
  | cons q rest ih =>
    obtain ⟨k, t⟩ := q
    by_cases hk : k = id
    · simp only [regDelete, if_pos hk]
      exact List.sublist_cons_self _ _
    · simp only [regDelete, if_neg hk]
      exact List.Sublist.cons₂ _ ih

/-- Looking up the key just written returns the written value. -/
theorem regLookup_regSet (r : Registry) (id : Nat) (v : List Nat) :
    regLookup (regSet r id v) id = some v := by
  induction r with
  | nil => simp [regSet, regLookup]
  | cons q rest ih =>
    obtain ⟨k, t⟩ := q
    by_cases hk : k = id
    · subst hk
      simp [regSet, regLookup]
    · simp [regSet, regLookup, hk, ih]

/-- Writing the same key twice keeps only the second write. -/
theorem regSet_regSet (r : Registry) (id : Nat) (v w : List Nat) :
    regSet (regSet r id v) id w = regSet r id w := by
  induction r with
  | nil => simp [regSet]
  | cons q rest ih =>
    obtain ⟨k, t⟩ := q
    by_cases hk : k = id
    · subst hk
      simp [regSet]
    · simp [regSet, hk, ih]

/-- With unique keys, the deleted key no longer looks up. -/
theorem regLookup_regDelete {r : Registry} {id : Nat}
    (hnd : (r.map Prod.fst).Nodup) : regLookup (regDelete r id) id = none := by
  induction r with
  | nil => rfl
  | cons q rest ih =>
    obtain ⟨k, t⟩ := q
    simp at hnd
    by_cases hk : k = id
    · subst hk
      simp [regDelete]
      exact regLookup_eq_none (by simpa using hnd.1)
    · simp [regDelete, regLookup, hk]
      exact ih hnd.2

/-- `setAdd` keeps the set duplicate-free. -/
theorem setAdd_nodup {s : List Nat} (h : s.Nodup) (cb : Nat) : (setAdd s cb).Nodup := by
  by_cases hm : cb ∈ s
  · simpa [setAdd, hm] using h
  · simp only [setAdd, if_neg hm]
    refine List.Nodup.append h (List.nodup_singleton cb) ?_
    intro x hx hx'
    have hxcb : x = cb := by simpa using hx'
    subst hxcb
    exact hm hx

/-- `setAdd` never produces the empty set. -/
theorem setAdd_ne_nil (s : List Nat) (cb : Nat) : setAdd s cb ≠ [] := by
  by_cases hm : cb ∈ s
  · simp only [setAdd, if_pos hm]
    exact List.ne_nil_of_mem hm
  · simp only [setAdd, if_neg hm]
    simp

/-- `subscribe` preserves well-formedness. -/
theorem subscribeOp_wf {r : Registry} (h : RegWF r) (id cb : Nat) :
    RegWF (subscribeOp r id cb) := by
  obtain ⟨hent, hkeys⟩ := h
  unfold subscribeOp
  cases hlk : regLookup r id with
  | none =>
    refine ⟨?_, ?_⟩
    · intro p hp
      rcases regSet_mem hp with hp' | hp'
      · subst hp'
        exact ⟨setAdd_ne_nil [] cb, setAdd_nodup List.nodup_nil cb⟩
      · exact hent p hp'
    · rw [regSet_map_fst_of_not_mem (regLookup_none_not_mem hlk)]
      refine List.Nodup.append hkeys (List.nodup_singleton id) ?_
      intro x hx hx'
      have hxid : x = id := by simpa using hx'
      subst hxid
      exact (regLookup_none_not_mem hlk) hx
  | some s =>
    have hmem : (id, s) ∈ r := regLookup_mem hlk
    have hskey : id ∈ r.map Prod.fst := List.mem_map_of_mem Prod.fst hmem
    refine ⟨?_, ?_⟩
    · intro p hp
      rcases regSet_mem hp with hp' | hp'
      · subst hp'
        exact ⟨setAdd_ne_nil s cb, setAdd_nodup (hent _ hmem).2 cb⟩
      · exact hent p hp'
    · rw [regSet_map_fst_of_mem hskey]
      exact hkeys

/-- An unsubscribe invocation preserves well-formedness. -/
theorem unsubscribeOp_wf {r : Registry} (h : RegWF r) (id cb : Nat) :
    RegWF (unsubscribeOp r id cb) := by
  obtain ⟨hent, hkeys⟩ := h
  unfold unsubscribeOp
  cases hlk : regLookup r id with
  | none => exact ⟨hent, hkeys⟩
  | some s =>
    have hmem : (id, s) ∈ r := regLookup_mem hlk
    have hskey : id ∈ r.map Prod.fst := List.mem_map_of_mem Prod.fst hmem
    by_cases hnil : s.erase cb = []
    · simp only [hnil, if_pos rfl]
      refine ⟨?_, ?_⟩
      · intro p hp
        exact hent p ((regDelete_sublist r id).mem hp)
      · exact ((regDelete_sublist r id).map Prod.fst).nodup hkeys
    · simp only [if_neg hnil]
      refine ⟨?_, ?_⟩
      · intro p hp
        rcases regSet_mem hp with hp' | hp'
        · subst hp'
          exact ⟨hnil, (hent _ hmem).2.erase cb⟩
        · exact hent p hp'
      · rw [regSet_map_fst_of_mem hskey]
        exact hkeys

/-- Well-formedness of every state reachable from the empty registry. -/
theorem applyEvents_wf (events : List SubEvent) : RegWF (applyEvents events) := by
  have general : ∀ (evs : List SubEvent) (r : Registry), RegWF r →
      RegWF (evs.foldl applyEvent r) := by
    intro evs
    induction evs with
    | nil => intro r h; exact h
    | cons e rest ih =>
      intro r h
      cases e with
      | sub id cb => exact ih _ (subscribeOp_wf h id cb)
      | unsub id cb => exact ih _ (unsubscribeOp_wf h id cb)
  exact general events [] ⟨by simp, by simp⟩

/-- On a well-formed registry, invoking the same unsubscribe capability a
second time is a no-op. -/
theorem unsubscribeOp_idem {r : Registry} (h : RegWF r) (id cb : Nat) :
    unsubscribeOp (unsubscribeOp r id cb) id cb = unsubscribeOp r id cb := by
  obtain ⟨hent, hkeys⟩ := h
  cases hlk : regLookup r id with
  | none => simp [unsubscribeOp, hlk]
  | some s =>
    have hmem : (id, s) ∈ r := regLookup_mem hlk
    have hnds : s.Nodup := (hent _ hmem).2
    by_cases hnil : s.erase cb = []
    · have h1 : unsubscribeOp r id cb = regDelete r id := by
        simp [unsubscribeOp, hlk, hnil]
      rw [h1]
      simp [unsubscribeOp, regLookup_regDelete hkeys]
    · have h1 : unsubscribeOp r id cb = regSet r id (s.erase cb) := by
        simp [unsubscribeOp, hlk, hnil]
      rw [h1]
      have hnotmem : cb ∉ s.erase cb := by
        intro hc
        exact ((hnds.mem_erase_iff).mp hc).1 rfl
      have h3 : (s.erase cb).erase cb = s.erase cb := List.erase_of_not_mem hnotmem
      simp [unsubscribeOp, regLookup_regSet, h3, hnil, regSet_regSet]

/-- Claim C10: starting from the empty registry, after any sequence of
subscribe calls and unsubscribe invocations every job id present in the
registry maps to a non-empty callback set, and invoking the same
unsubscribe capability a second time leaves the registry unchanged. -/
theorem C10_subscriber_registry (events : List SubEvent) :
    (∀ p ∈ applyEvents events, p.2 ≠ []) ∧
    (∀ id cb : Nat,
      unsubscribeOp (unsubscribeOp (applyEvents events) id cb) id cb =
        unsubscribeOp (applyEvents events) id cb) := by
  have hwf := applyEvents_wf events
  exact ⟨fun p hp => (hwf.1 p hp).1, fun id cb => unsubscribeOp_idem hwf id cb⟩

/-- Witness for C10 at the one-subscription history `subscribe(1, 7)`. -/
theorem C10_subscriber_registry_witness :
    (∀ p ∈ applyEvents [SubEvent.sub 1 7], p.2 ≠ []) ∧
    unsubscribeOp (unsubscribeOp (applyEvents [SubEvent.sub 1 7]) 1 7) 1 7 =
      unsubscribeOp (applyEvents [SubEvent.sub 1 7]) 1 7 :=
  ⟨(C10_subscriber_registry [SubEvent.sub 1 7]).1,
   (C10_subscriber_registry [SubEvent.sub 1 7]).2 1 7⟩

end M3U8
